import Mathlib

/-!
Verification of the business-case notebook (synthetic e-commerce A/B test).

The notebook has two substantive components:

* an event simulator (`data_list` loop, cell 7): for every date and for each
  of the two groups it draws an event count, user ids, a click mask, a
  purchase mask (click mask ANDed with a fresh uniform draw) and revenues
  for purchase rows;
* a KPI aggregator (cell 15): group by (group, date), count the rows of
  each event type, sum revenue, derive CVR, AOV and CTR, then replace the
  infinities by NaN and fill NaN with 0.

The embedding below keeps the notebook structure.  Randomness is modelled
by an oracle `Draws` holding, for every (day index, group index), the drawn
event count and the per-row unit uniform draws the numpy calls produce; the
simulator body is a pure function of the configuration and this oracle,
exactly as the notebook body is a pure function of the seeded numpy stream.
Float ratio arithmetic on the KPI columns is modelled by `PVal`, a rational
number extended with the two infinities and NaN, with numpy division
semantics: x/0 is +inf for x > 0, -inf for x < 0 and NaN for 0/0.
-/

namespace BusinessCase

/-- Value numpy uniform(lo, hi) returns for a unit draw u in [0,1). -/
def uniformVal (lo hi u : ℚ) : ℚ := lo + u * (hi - lo)

/-- The random draws consumed by the simulator, indexed by day index and
group index (0 = control, 1 = treatment).  `numViews` is the value of
`events_per_day()`, `userIds` the row user ids, `clickU` and `purchU` the
two independent `np.random.rand(num_views)` vectors, and `revenueU` the
unit draws behind `np.random.uniform(r_revenue[0], r_revenue[1],
size=num_purchases)`, indexed by purchase rank. -/
structure Draws where
  numViews : ℕ → ℕ → ℕ
  userIds : ℕ → ℕ → ℕ → ℕ
  clickU : ℕ → ℕ → ℕ → ℚ
  purchU : ℕ → ℕ → ℕ → ℚ
  revenueU : ℕ → ℕ → ℕ → ℚ

/-- The simulation parameters of notebook cell 6. -/
structure Config where
  num_days : ℕ
  revenue_global : Bool
  r_revenue_global : ℚ × ℚ
  p_click_control : ℚ
  p_purchase_control : ℚ
  r_revenue_control : ℚ × ℚ
  p_click_treatment : ℚ
  p_purchase_treatment : ℚ
  r_revenue_treatment : ℚ × ℚ

/-- The reference configuration of cell 6 (dates are day indices 0..29). -/
def referenceCfg : Config where
  num_days := 30
  revenue_global := true
  r_revenue_global := (20, 200)
  p_click_control := 15/100
  p_purchase_control := 5/100
  r_revenue_control := (200, 300)
  p_click_treatment := 25/100
  p_purchase_treatment := 10/100
  r_revenue_treatment := (20, 100)

/-- Group click probability, as selected at the top of the loop body. -/
def p_click (cfg : Config) (group : String) : ℚ :=
  if group = "control" then cfg.p_click_control else cfg.p_click_treatment

/-- Group purchase probability, as selected at the top of the loop body. -/
def p_purchase (cfg : Config) (group : String) : ℚ :=
  if group = "control" then cfg.p_purchase_control else cfg.p_purchase_treatment

/-- Effective revenue range: the group range, overridden by the global
range when `revenue_global` is set. -/
def r_revenue (cfg : Config) (group : String) : ℚ × ℚ :=
  if cfg.revenue_global then cfg.r_revenue_global
  else if group = "control" then cfg.r_revenue_control else cfg.r_revenue_treatment

/-- One row of the Event table. -/
structure Event where
  user_id : ℕ
  date : ℕ
  event_type : String
  group : String
  revenue : ℚ
  deriving DecidableEq

/-- click_mask at row i: the click draw is below the click probability. -/
def clickCond (cfg : Config) (dr : Draws) (group : String) (d gi i : ℕ) : Prop :=
  dr.clickU d gi i < p_click cfg group

instance (cfg : Config) (dr : Draws) (group : String) (d gi i : ℕ) :
    Decidable (clickCond cfg dr group d gi i) :=
  inferInstanceAs (Decidable (dr.clickU d gi i < p_click cfg group))

/-- purchase_mask at row i: click mask ANDed with a fresh uniform draw
below the purchase probability. -/
def purchaseCond (cfg : Config) (dr : Draws) (group : String) (d gi i : ℕ) : Prop :=
  clickCond cfg dr group d gi i ∧ dr.purchU d gi i < p_purchase cfg group

instance (cfg : Config) (dr : Draws) (group : String) (d gi i : ℕ) :
    Decidable (purchaseCond cfg dr group d gi i) :=
  inferInstanceAs
    (Decidable (clickCond cfg dr group d gi i ∧ dr.purchU d gi i < p_purchase cfg group))

/-- Final label of row i: initialised to view, overwritten by click on the
click mask, then overwritten by purchase on the purchase mask.  Because the
purchase mask implies the click mask this equals the notebook result. -/
def eventTypeAt (cfg : Config) (dr : Draws) (group : String) (d gi i : ℕ) : String :=
  if purchaseCond cfg dr group d gi i then "purchase"
  else if clickCond cfg dr group d gi i then "click"
  else "view"

/-- Position of row i among the purchase rows: numpy assigns the k-th value
of the size=num_purchases revenue vector to the k-th True position of the
purchase mask. -/
def purchaseRank (cfg : Config) (dr : Draws) (group : String) (d gi i : ℕ) : ℕ :=
  ((List.range i).filter (fun j => decide (purchaseCond cfg dr group d gi j))).length

/-- Revenue of row i: a uniform draw from the effective range on purchase
rows, 0 elsewhere (`revenues = np.zeros(num_views)`). -/
def revenueAt (cfg : Config) (dr : Draws) (group : String) (d gi i : ℕ) : ℚ :=
  if purchaseCond cfg dr group d gi i then
    uniformVal (r_revenue cfg group).1 (r_revenue cfg group).2
      (dr.revenueU d gi (purchaseRank cfg dr group d gi i))
  else 0

/-- The `day_data` frame built by one iteration of the loop body. -/
def day_data (cfg : Config) (dr : Draws) (d gi : ℕ) (group : String) : List Event :=
  (List.range (dr.numViews d gi)).map (fun i =>
    { user_id := dr.userIds d gi i
      date := d
      event_type := eventTypeAt cfg dr group d gi i
      group := group
      revenue := revenueAt cfg dr group d gi i })

/-- The full Event table `data`: concatenation of the per-day control and
treatment frames, in loop order. -/
def data (cfg : Config) (dr : Draws) : List Event :=
  ((List.range cfg.num_days).map (fun d =>
    day_data cfg dr d 0 "control" ++ day_data cfg dr d 1 "treatment")).flatten

/-- A pandas float cell: a finite rational, an infinity, or NaN. -/
inductive PVal where
  | fin (q : ℚ)
  | posInf
  | negInf
  | nan
  deriving DecidableEq

/-- numpy division: x/0 is +inf, -inf or NaN according to the sign of x. -/
def pdiv (a b : ℚ) : PVal :=
  if b = 0 then (if 0 < a then PVal.posInf else if a < 0 then PVal.negInf else PVal.nan)
  else PVal.fin (a / b)

/-- Multiplication by the positive constant 100 (infinities and NaN are
fixed points). -/
def pmul100 : PVal → PVal
  | PVal.fin q => PVal.fin (q * 100)
  | x => x

/-- `kpi_data.replace([np.inf, -np.inf], np.nan)`. -/
def replaceInf : PVal → PVal
  | PVal.posInf => PVal.nan
  | PVal.negInf => PVal.nan
  | x => x

/-- `kpi_data.fillna(0)`. -/
def fillna : PVal → PVal
  | PVal.nan => PVal.fin 0
  | x => x

/-- The post-processing applied to the raw ratios, in notebook order:
replace the infinities by NaN, then fill NaN with 0. -/
def sanitize (x : PVal) : PVal := fillna (replaceInf x)

/-- Read a finite cell back as a rational (sanitized ratios are always
finite, see `sanitize_pdiv_fin`). -/
def getFin : PVal → ℚ
  | PVal.fin q => q
  | _ => 0

/-- One row of the KPI table: the groupby key, the four aggregates and the
three derived, sanitized ratio columns — exactly the columns
group, date, views, clicks, purchases, revenue, CVR, AOV, CTR. -/
structure KpiRow where
  group : String
  date : ℕ
  views : ℕ
  clicks : ℕ
  purchases : ℕ
  revenue : ℚ
  CVR : ℚ
  AOV : ℚ
  CTR : ℚ
  deriving DecidableEq

/-- The (group, date) key of a KPI row. -/
def rowKey (r : KpiRow) : String × ℕ := (r.group, r.date)

/-- The KPI row of one groupby key: counts of each final event label, the
revenue sum, then CVR = purchases/views*100, AOV = revenue/purchases and
CTR = clicks/views*100, each sanitized by the replace/fillna step. -/
def kpiRow (evts : List Event) (k : String × ℕ) : KpiRow :=
  let g := evts.filter (fun e => decide (e.group = k.1 ∧ e.date = k.2))
  let views := (g.filter (fun e => decide (e.event_type = "view"))).length
  let clicks := (g.filter (fun e => decide (e.event_type = "click"))).length
  let purchases := (g.filter (fun e => decide (e.event_type = "purchase"))).length
  let revenue := (g.map Event.revenue).sum
  { group := k.1
    date := k.2
    views := views
    clicks := clicks
    purchases := purchases
    revenue := revenue
    CVR := getFin (sanitize (pmul100 (pdiv (purchases : ℚ) (views : ℚ))))
    AOV := getFin (sanitize (pdiv revenue (purchases : ℚ)))
    CTR := getFin (sanitize (pmul100 (pdiv (clicks : ℚ) (views : ℚ)))) }

/-- The distinct (group, date) keys present in the Event table: the groupby
produces one output row per such key. -/
def kpiKeys (evts : List Event) : List (String × ℕ) :=
  (evts.map (fun e => (e.group, e.date))).dedup

/-- The KPI table `kpi_data`: one row per distinct (group, date) key. -/
def kpi_data (evts : List Event) : List KpiRow :=
  (kpiKeys evts).map (kpiRow evts)

/-- The whole pipeline as a function of the configuration and the seed,
where `seedDraws` is the (deterministic) expansion of a seed into the
stream of draws produced by the seeded global numpy generator. -/
def pipeline (cfg : Config) (seedDraws : ℕ → Draws) (seed : ℕ) :
    List Event × List KpiRow :=
  (data cfg (seedDraws seed), kpi_data (data cfg (seedDraws seed)))

/-! ### Helper lemmas on the sanitizer -/

theorem sanitize_pdiv_den_zero (a : ℚ) : sanitize (pdiv a 0) = PVal.fin 0 := by
  unfold sanitize pdiv replaceInf fillna
  rcases lt_trichotomy a 0 with h | h | h
  · simp [h, not_lt.mpr h.le]
  · simp [h]
  · simp [h, not_lt.mpr h.le]

theorem sanitize_pmul100_pdiv_den_zero (a : ℚ) :
    sanitize (pmul100 (pdiv a 0)) = PVal.fin 0 := by
  unfold sanitize pdiv pmul100 replaceInf fillna
  rcases lt_trichotomy a 0 with h | h | h
  · simp [h, not_lt.mpr h.le]
  · simp [h]
  · simp [h, not_lt.mpr h.le]

theorem sanitize_pdiv_fin (a b : ℚ) : ∃ q : ℚ, sanitize (pdiv a b) = PVal.fin q := by
  by_cases hb : b = 0
  · exact ⟨0, by rw [hb]; exact sanitize_pdiv_den_zero a⟩
  · exact ⟨a / b, by simp [sanitize, pdiv, hb, replaceInf, fillna]⟩

/-! ### Projection equations for `kpiRow` -/

theorem kpiRow_CVR (evts : List Event) (k : String × ℕ) :
    (kpiRow evts k).CVR
      = getFin (sanitize (pmul100
          (pdiv ((kpiRow evts k).purchases : ℚ) ((kpiRow evts k).views : ℚ)))) := rfl

theorem kpiRow_CTR (evts : List Event) (k : String × ℕ) :
    (kpiRow evts k).CTR
      = getFin (sanitize (pmul100
          (pdiv ((kpiRow evts k).clicks : ℚ) ((kpiRow evts k).views : ℚ)))) := rfl

theorem kpiRow_AOV (evts : List Event) (k : String × ℕ) :
    (kpiRow evts k).AOV
      = getFin (sanitize
          (pdiv (kpiRow evts k).revenue ((kpiRow evts k).purchases : ℚ))) := rfl

/-! ### C1 -/

/-- C1: a zero denominator yields KPI value 0.  The raw ratio computed
first is +inf (positive numerator), -inf (negative numerator) or NaN
(0/0); the substitution is applied afterwards, mapping the infinities to
NaN and filling NaN with 0.  Consequently every KPI row with views = 0 has
CVR = CTR = 0 and every row with purchases = 0 has AOV = 0. -/
theorem c1_zero_denominator_yields_zero :
    (∀ a : ℚ, 0 < a → pdiv a 0 = PVal.posInf) ∧
    (∀ a : ℚ, a < 0 → pdiv a 0 = PVal.negInf) ∧
    pdiv 0 0 = PVal.nan ∧
    (∀ a : ℚ, sanitize (pdiv a 0) = PVal.fin 0) ∧
    (∀ a : ℚ, sanitize (pmul100 (pdiv a 0)) = PVal.fin 0) ∧
    (∀ (evts : List Event) (row : KpiRow), row ∈ kpi_data evts →
      (row.views = 0 → row.CVR = 0 ∧ row.CTR = 0) ∧
      (row.purchases = 0 → row.AOV = 0)) := by
  refine ⟨fun a ha => by simp [pdiv, ha], fun a ha => by simp [pdiv, ha, not_lt.mpr ha.le],
    by simp [pdiv], sanitize_pdiv_den_zero, sanitize_pmul100_pdiv_den_zero, ?_⟩
  intro evts row hrow
  obtain ⟨k, _, rfl⟩ := List.mem_map.mp hrow
  refine ⟨fun hv => ?_, fun hp => ?_⟩
  · rw [kpiRow_CVR, kpiRow_CTR, hv]
    simp [sanitize_pmul100_pdiv_den_zero, getFin]
  · rw [kpiRow_AOV, hp]
    simp [sanitize_pdiv_den_zero, getFin]

/-- A one-row Event table whose single row is a click: its KPI row has
views = 0 and purchases = 0. -/
def evtsW1 : List Event := [⟨1, 0, "click", "control", 0⟩]

/-- Witness for C1 at a concrete table with a zero denominator. -/
theorem c1_zero_denominator_yields_zero_witness :
    0 < (5 : ℚ) ∧ pdiv 5 0 = PVal.posInf ∧
    kpiRow evtsW1 ("control", 0) ∈ kpi_data evtsW1 ∧
    (kpiRow evtsW1 ("control", 0)).views = 0 ∧
    (kpiRow evtsW1 ("control", 0)).CVR = 0 ∧
    (kpiRow evtsW1 ("control", 0)).CTR = 0 ∧
    (kpiRow evtsW1 ("control", 0)).purchases = 0 ∧
    (kpiRow evtsW1 ("control", 0)).AOV = 0 := by
  have hkd : kpi_data evtsW1 = [kpiRow evtsW1 ("control", 0)] := rfl
  have hmem : kpiRow evtsW1 ("control", 0) ∈ kpi_data evtsW1 := by
    rw [hkd]; exact List.mem_singleton.mpr rfl
  have hv : (kpiRow evtsW1 ("control", 0)).views = 0 := rfl
  have hp : (kpiRow evtsW1 ("control", 0)).purchases = 0 := rfl
  have hmain := c1_zero_denominator_yields_zero
  have h1 := hmain.1 5 (by norm_num)
  have h2 := (hmain.2.2.2.2.2 evtsW1 _ hmem).1 hv
  have h3 := (hmain.2.2.2.2.2 evtsW1 _ hmem).2 hp
  exact ⟨by norm_num, h1, hmem, hv, h2.1, h2.2, hp, h3⟩

/-! ### C2 -/

theorem eventTypeAt_eq_purchase_iff (cfg : Config) (dr : Draws) (group : String)
    (d gi i : ℕ) :
    eventTypeAt cfg dr group d gi i = "purchase" ↔ purchaseCond cfg dr group d gi i := by
  unfold eventTypeAt
  by_cases hp : purchaseCond cfg dr group d gi i
  · simp [hp]
  · by_cases hc : clickCond cfg dr group d gi i <;> simp [hp, hc]

theorem day_data_get_event_type (cfg : Config) (dr : Draws) (d gi : ℕ) (group : String)
    (i : ℕ) (h : i < (day_data cfg dr d gi group).length) :
    ((day_data cfg dr d gi group).get ⟨i, h⟩).event_type
      = eventTypeAt cfg dr group d gi i := by
  simp [day_data]

/-- A configuration whose only live fields are the control probabilities,
used to state the effective purchase probability of a view. -/
def probeCfg (pc pp : ℚ) : Config where
  num_days := 1
  revenue_global := true
  r_revenue_global := (0, 0)
  p_click_control := pc
  p_purchase_control := pp
  r_revenue_control := (0, 0)
  p_click_treatment := 0
  p_purchase_treatment := 0
  r_revenue_treatment := (0, 0)

/-- A draw oracle whose click and purchase unit draws are the grid point
(u/N, v/N). -/
def gridDraws (N u v : ℕ) : Draws where
  numViews := fun _ _ => 0
  userIds := fun _ _ _ => 0
  clickU := fun _ _ _ => (u : ℚ) / N
  purchU := fun _ _ _ => (v : ℚ) / N
  revenueU := fun _ _ _ => 0

theorem grid_purchase_iff (N a b u v : ℕ) (hN : 0 < N) :
    eventTypeAt (probeCfg ((a : ℚ)/N) ((b : ℚ)/N)) (gridDraws N u v) "control" 0 0 0
        = "purchase" ↔ (u < a ∧ v < b) := by
  have hNQ : (0 : ℚ) < N := by exact_mod_cast hN
  rw [eventTypeAt_eq_purchase_iff]
  unfold purchaseCond clickCond
  simp only [probeCfg, gridDraws, p_click, p_purchase, eq_self_iff_true, if_true]
  rw [div_lt_div_iff_of_pos_right hNQ, div_lt_div_iff_of_pos_right hNQ]
  exact_mod_cast Iff.rfl

theorem grid_purchase_count (N a b : ℕ) (hN : 0 < N) (ha : a ≤ N) (hb : b ≤ N) :
    ((Finset.range N ×ˢ Finset.range N).filter
      (fun x => eventTypeAt (probeCfg ((a : ℚ)/N) ((b : ℚ)/N))
        (gridDraws N x.1 x.2) "control" 0 0 0 = "purchase")).card = a * b := by
  have hfe : ((Finset.range N ×ˢ Finset.range N).filter
      (fun x => eventTypeAt (probeCfg ((a : ℚ)/N) ((b : ℚ)/N))
        (gridDraws N x.1 x.2) "control" 0 0 0 = "purchase"))
      = (Finset.range a) ×ˢ (Finset.range b) := by
    ext x
    simp only [Finset.mem_filter, Finset.mem_product, Finset.mem_range,
      grid_purchase_iff N a b x.1 x.2 hN]
    constructor
    · rintro ⟨-, h3, h4⟩; exact ⟨h3, h4⟩
    · rintro ⟨h1, h2⟩
      exact ⟨⟨lt_of_lt_of_le h1 ha, lt_of_lt_of_le h2 hb⟩, h1, h2⟩
  rw [hfe, Finset.card_product, Finset.card_range, Finset.card_range]

/-- C2: a row is labeled purchase iff its click draw is below the click
probability AND a fresh independent draw is below the purchase
probability; hence every purchase row satisfied the click condition.  On a
uniform N by N grid of independent draw pairs with click probability a/N
and purchase probability b/N, exactly a*b of the N*N points yield a
purchase: the effective purchase probability of a view is the product of
the two probabilities. -/
theorem c2_purchase_mask_is_and_of_independent_draws :
    (∀ (cfg : Config) (dr : Draws) (group : String) (d gi i : ℕ),
      eventTypeAt cfg dr group d gi i = "purchase" ↔
        (dr.clickU d gi i < p_click cfg group ∧
         dr.purchU d gi i < p_purchase cfg group)) ∧
    (∀ (cfg : Config) (dr : Draws) (group : String) (d gi i : ℕ),
      eventTypeAt cfg dr group d gi i = "purchase" →
        dr.clickU d gi i < p_click cfg group) ∧
    (∀ (cfg : Config) (dr : Draws) (d gi : ℕ) (group : String) (i : ℕ)
      (h : i < (day_data cfg dr d gi group).length),
      ((day_data cfg dr d gi group).get ⟨i, h⟩).event_type
        = eventTypeAt cfg dr group d gi i) ∧
    (∀ N a b : ℕ, 0 < N → a ≤ N → b ≤ N →
      ((Finset.range N ×ˢ Finset.range N).filter
        (fun x => eventTypeAt (probeCfg ((a : ℚ)/N) ((b : ℚ)/N))
          (gridDraws N x.1 x.2) "control" 0 0 0 = "purchase")).card = a * b) := by
  refine ⟨?_, ?_, day_data_get_event_type, grid_purchase_count⟩
  · intro cfg dr group d gi i
    rw [eventTypeAt_eq_purchase_iff]
    exact Iff.rfl
  · intro cfg dr group d gi i h
    exact ((eventTypeAt_eq_purchase_iff cfg dr group d gi i).mp h).1

/-- Witness draws for C2: one row whose two unit draws are both 0. -/
def drW2 : Draws := gridDraws 2 0 0

/-- Configuration for the C2 witness: click and purchase probability 1/2. -/
def cfgW2 : Config := probeCfg (1/2) (1/2)

/-- Witness for C2 at concrete inputs. -/
theorem c2_purchase_mask_is_and_of_independent_draws_witness :
    (eventTypeAt cfgW2 drW2 "control" 0 0 0 = "purchase") ∧
    drW2.clickU 0 0 0 < p_click cfgW2 "control" ∧
    0 < 2 ∧ 1 ≤ 2 ∧ 2 ≤ 2 ∧
    ((Finset.range 2 ×ˢ Finset.range 2).filter
      (fun x => eventTypeAt (probeCfg ((1 : ℚ)/2) ((2 : ℚ)/2))
        (gridDraws 2 x.1 x.2) "control" 0 0 0 = "purchase")).card = 1 * 2 := by
  have hpur : eventTypeAt cfgW2 drW2 "control" 0 0 0 = "purchase" := by
    rw [eventTypeAt_eq_purchase_iff]
    unfold purchaseCond clickCond
    norm_num [cfgW2, drW2, probeCfg, gridDraws, p_click, p_purchase]
  refine ⟨hpur,
    c2_purchase_mask_is_and_of_independent_draws.2.1 cfgW2 drW2 "control" 0 0 0 hpur,
    by norm_num, by norm_num, by norm_num, ?_⟩
  have h := c2_purchase_mask_is_and_of_independent_draws.2.2.2 2 1 2
    (by norm_num) (by norm_num) (by norm_num)
  exact_mod_cast h

/-! ### Row-shape lemmas for the simulator -/

theorem mem_day_data (cfg : Config) (dr : Draws) (d gi : ℕ) (group : String)
    (e : Event) :
    e ∈ day_data cfg dr d gi group ↔ ∃ i, i < dr.numViews d gi ∧
      e = ⟨dr.userIds d gi i, d, eventTypeAt cfg dr group d gi i, group,
           revenueAt cfg dr group d gi i⟩ := by
  simp only [day_data, List.mem_map, List.mem_range]
  constructor
  · rintro ⟨i, hi, rfl⟩; exact ⟨i, hi, rfl⟩
  · rintro ⟨i, hi, rfl⟩; exact ⟨i, hi, rfl⟩

theorem mem_data (cfg : Config) (dr : Draws) (e : Event) :
    e ∈ data cfg dr ↔ ∃ d, d < cfg.num_days ∧
      (e ∈ day_data cfg dr d 0 "control" ∨ e ∈ day_data cfg dr d 1 "treatment") := by
  simp only [data, List.mem_flatten, List.mem_map, List.mem_range]
  constructor
  · rintro ⟨l, ⟨d, hd, rfl⟩, hmem⟩; exact ⟨d, hd, List.mem_append.mp hmem⟩
  · rintro ⟨d, hd, hmem⟩; exact ⟨_, ⟨d, hd, rfl⟩, List.mem_append.mpr hmem⟩

theorem eventTypeAt_mem (cfg : Config) (dr : Draws) (group : String) (d gi i : ℕ) :
    eventTypeAt cfg dr group d gi i = "view" ∨
    eventTypeAt cfg dr group d gi i = "click" ∨
    eventTypeAt cfg dr group d gi i = "purchase" := by
  unfold eventTypeAt
  by_cases hp : purchaseCond cfg dr group d gi i
  · simp [hp]
  · by_cases hc : clickCond cfg dr group d gi i <;> simp [hp, hc]

theorem le_uniformVal (lo hi u : ℚ) (hu : 0 ≤ u) (h : lo ≤ hi) :
    lo ≤ uniformVal lo hi u := by
  have := mul_nonneg hu (sub_nonneg.mpr h)
  unfold uniformVal
  linarith

/-- Revenue of a row is zero unless the purchase mask holds, in which case
it is at least the lower end of the effective range. -/
theorem revenueAt_spec (cfg : Config) (dr : Draws) (group : String) (d gi i : ℕ)
    (hu : ∀ k, 0 ≤ dr.revenueU d gi k)
    (hr : (r_revenue cfg group).1 ≤ (r_revenue cfg group).2) :
    (purchaseCond cfg dr group d gi i →
      (r_revenue cfg group).1 ≤ revenueAt cfg dr group d gi i) ∧
    (¬ purchaseCond cfg dr group d gi i → revenueAt cfg dr group d gi i = 0) := by
  constructor
  · intro hp
    rw [revenueAt, if_pos hp]
    exact le_uniformVal _ _ _ (hu _) hr
  · intro hp
    rw [revenueAt, if_neg hp]

/-! ### C7 -/

/-- C7: in the generated Event table every label is view, click or
purchase, and revenue is strictly positive exactly on the purchase rows
(all other rows have revenue 0).  The hypotheses say the unit revenue
draws are non-negative and the effective revenue ranges have a positive
lower end not above the upper end, as in the reference configuration
(global range (20, 200)). -/
theorem c7_event_type_and_revenue (cfg : Config) (dr : Draws)
    (hru : ∀ d gi k, 0 ≤ dr.revenueU d gi k)
    (hc1 : 0 < (r_revenue cfg "control").1)
    (hc2 : (r_revenue cfg "control").1 ≤ (r_revenue cfg "control").2)
    (ht1 : 0 < (r_revenue cfg "treatment").1)
    (ht2 : (r_revenue cfg "treatment").1 ≤ (r_revenue cfg "treatment").2) :
    ∀ e ∈ data cfg dr,
      (e.event_type = "view" ∨ e.event_type = "click" ∨ e.event_type = "purchase") ∧
      (0 < e.revenue ↔ e.event_type = "purchase") := by
  intro e he
  obtain ⟨d, -, hcase⟩ := (mem_data cfg dr e).mp he
  have main : ∀ (gi : ℕ) (group : String), 0 < (r_revenue cfg group).1 →
      (r_revenue cfg group).1 ≤ (r_revenue cfg group).2 →
      e ∈ day_data cfg dr d gi group →
      (e.event_type = "view" ∨ e.event_type = "click" ∨ e.event_type = "purchase") ∧
      (0 < e.revenue ↔ e.event_type = "purchase") := by
    intro gi group h1 h2 hmem
    obtain ⟨i, -, rfl⟩ := (mem_day_data cfg dr d gi group e).mp hmem
    refine ⟨eventTypeAt_mem cfg dr group d gi i, ?_⟩
    by_cases hp : purchaseCond cfg dr group d gi i
    · have hrev := ((revenueAt_spec cfg dr group d gi i (hru d gi) h2).1 hp)
      have het : eventTypeAt cfg dr group d gi i = "purchase" :=
        (eventTypeAt_eq_purchase_iff cfg dr group d gi i).mpr hp
      exact ⟨fun _ => het, fun _ => lt_of_lt_of_le h1 hrev⟩
    · have hrev := ((revenueAt_spec cfg dr group d gi i (hru d gi) h2).2 hp)
      constructor
      · intro h0
        have h0' : (0:ℚ) < revenueAt cfg dr group d gi i := h0
        rw [hrev] at h0'
        exact absurd h0' (lt_irrefl 0)
      · intro het
        have het' : eventTypeAt cfg dr group d gi i = "purchase" := het
        exact absurd ((eventTypeAt_eq_purchase_iff cfg dr group d gi i).mp het') hp
  rcases hcase with hmem | hmem
  · exact main 0 "control" hc1 hc2 hmem
  · exact main 1 "treatment" ht1 ht2 hmem

/-- Witness draws for C7: one event per day and group, all unit draws 0
(so the first control row is promoted all the way to a purchase). -/
def drW7 : Draws where
  numViews := fun _ _ => 1
  userIds := fun _ _ _ => 0
  clickU := fun _ _ _ => 0
  purchU := fun _ _ _ => 0
  revenueU := fun _ _ _ => 0

/-- The first control row generated under `drW7`. -/
def eW7 : Event :=
  ⟨drW7.userIds 0 0 0, 0, eventTypeAt referenceCfg drW7 "control" 0 0 0, "control",
   revenueAt referenceCfg drW7 "control" 0 0 0⟩

/-- Witness for C7 at the reference configuration. -/
theorem c7_event_type_and_revenue_witness :
    (∀ d gi k, 0 ≤ drW7.revenueU d gi k) ∧
    0 < (r_revenue referenceCfg "control").1 ∧
    (r_revenue referenceCfg "control").1 ≤ (r_revenue referenceCfg "control").2 ∧
    0 < (r_revenue referenceCfg "treatment").1 ∧
    (r_revenue referenceCfg "treatment").1 ≤ (r_revenue referenceCfg "treatment").2 ∧
    eW7 ∈ data referenceCfg drW7 ∧
    (eW7.event_type = "view" ∨ eW7.event_type = "click" ∨ eW7.event_type = "purchase") ∧
    (0 < eW7.revenue ↔ eW7.event_type = "purchase") := by
  have hru : ∀ d gi k, (0:ℚ) ≤ drW7.revenueU d gi k := fun _ _ _ => le_refl 0
  have hc1 : 0 < (r_revenue referenceCfg "control").1 := by
    norm_num [r_revenue, referenceCfg]
  have hc2 : (r_revenue referenceCfg "control").1 ≤ (r_revenue referenceCfg "control").2 := by
    norm_num [r_revenue, referenceCfg]
  have ht1 : 0 < (r_revenue referenceCfg "treatment").1 := by
    norm_num [r_revenue, referenceCfg]
  have ht2 : (r_revenue referenceCfg "treatment").1 ≤ (r_revenue referenceCfg "treatment").2 := by
    norm_num [r_revenue, referenceCfg]
  have hmem : eW7 ∈ data referenceCfg drW7 := by
    refine (mem_data referenceCfg drW7 eW7).mpr ⟨0, by norm_num [referenceCfg], Or.inl ?_⟩
    exact (mem_day_data referenceCfg drW7 0 0 "control" eW7).mpr ⟨0, by norm_num [drW7], rfl⟩
  have h := c7_event_type_and_revenue referenceCfg drW7 hru hc1 hc2 ht1 ht2 eW7 hmem
  exact ⟨hru, hc1, hc2, ht1, ht2, hmem, h.1, h.2⟩

/-! ### C9 -/

theorem filter_three_partition (l : List Event)
    (h : ∀ e ∈ l, e.event_type = "view" ∨ e.event_type = "click" ∨
      e.event_type = "purchase") :
    (l.filter (fun e => decide (e.event_type = "view"))).length
      + (l.filter (fun e => decide (e.event_type = "click"))).length
      + (l.filter (fun e => decide (e.event_type = "purchase"))).length = l.length := by
  induction l with
  | nil => rfl
  | cons e t ih =>
    have hsum := ih (fun x hx => h x (List.mem_cons_of_mem e hx))
    rcases h e (List.mem_cons_self e t) with hv | hc | hp
    · simp [List.filter_cons, hv]; omega
    · simp [List.filter_cons, hc]; omega
    · simp [List.filter_cons, hp]; omega

/-- Every row of the generated Event table carries one of the three labels. -/
theorem data_event_type_mem (cfg : Config) (dr : Draws) :
    ∀ e ∈ data cfg dr, e.event_type = "view" ∨ e.event_type = "click" ∨
      e.event_type = "purchase" := by
  intro e he
  obtain ⟨d, -, hcase⟩ := (mem_data cfg dr e).mp he
  rcases hcase with hmem | hmem <;>
  · obtain ⟨i, -, rfl⟩ := (mem_day_data cfg dr d _ _ e).mp hmem
    exact eventTypeAt_mem cfg dr _ d _ i

theorem kpiRow_counts_partition (evts : List Event) (k : String × ℕ)
    (h : ∀ e ∈ evts, e.event_type = "view" ∨ e.event_type = "click" ∨
      e.event_type = "purchase") :
    (kpiRow evts k).views + (kpiRow evts k).clicks + (kpiRow evts k).purchases
      = (evts.filter (fun e => decide (e.group = k.1 ∧ e.date = k.2))).length :=
  filter_three_partition _ (fun e he => h e (List.mem_of_mem_filter he))

/-- C9: in every KPI row, views + clicks + purchases equals the number of
Event rows with that (group, date) key: the three labels are mutually
exclusive and exhaustive over the generated rows. -/
theorem c9_counts_exhaust_rows (cfg : Config) (dr : Draws) (row : KpiRow)
    (hrow : row ∈ kpi_data (data cfg dr)) :
    row.views + row.clicks + row.purchases
      = ((data cfg dr).filter
          (fun e => decide (e.group = row.group ∧ e.date = row.date))).length := by
  obtain ⟨k, -, rfl⟩ := List.mem_map.mp hrow
  exact kpiRow_counts_partition (data cfg dr) k (data_event_type_mem cfg dr)

/-- The control KPI row of a two-row table used as the C9 witness. -/
def rowW9 : KpiRow := kpiRow (data (probeCfg 1 1) drW7) ("control", 0)

/-- Witness for C9 at a concrete one-day configuration. -/
theorem c9_counts_exhaust_rows_witness :
    rowW9 ∈ kpi_data (data (probeCfg 1 1) drW7) ∧
    rowW9.views + rowW9.clicks + rowW9.purchases
      = ((data (probeCfg 1 1) drW7).filter
          (fun e => decide (e.group = rowW9.group ∧ e.date = rowW9.date))).length := by
  have hkey : ("control", 0) ∈ kpiKeys (data (probeCfg 1 1) drW7) := by decide
  have hrow : rowW9 ∈ kpi_data (data (probeCfg 1 1) drW7) :=
    List.mem_map.mpr ⟨("control", 0), hkey, rfl⟩
  exact ⟨hrow, c9_counts_exhaust_rows (probeCfg 1 1) drW7 rowW9 hrow⟩

/-! ### C8 -/

/-- C8: the pipeline output (Event table and KPI table) is a pure function
of the configuration and the seed: two runs with the same seed and
configuration produce identical tables.  `seedDraws` is the deterministic
expansion of the seed performed by the once-seeded global generator; the
simulator and the aggregator consume nothing else. -/
theorem c8_pipeline_deterministic (cfg : Config) (seedDraws : ℕ → Draws)
    (s1 s2 : ℕ) (h : s1 = s2) :
    pipeline cfg seedDraws s1 = pipeline cfg seedDraws s2 := by
  rw [h]

/-- Witness for C8: two runs with seed 42. -/
theorem c8_pipeline_deterministic_witness :
    42 = 42 ∧
    pipeline referenceCfg (fun _ => drW7) 42 = pipeline referenceCfg (fun _ => drW7) 42 :=
  ⟨rfl, c8_pipeline_deterministic referenceCfg (fun _ => drW7) 42 42 rfl⟩

/-! ### C10 -/

/-- The Event table only depends on the configuration through the number
of days and the three per-group parameter functions. -/
theorem data_congr (cfg cfg' : Config) (dr : Draws)
    (h0 : cfg'.num_days = cfg.num_days)
    (h1 : ∀ g, p_click cfg' g = p_click cfg g)
    (h2 : ∀ g, p_purchase cfg' g = p_purchase cfg g)
    (h3 : ∀ g, r_revenue cfg' g = r_revenue cfg g) :
    data cfg' dr = data cfg dr := by
  have hcc : ∀ g d gi i, clickCond cfg' dr g d gi i = clickCond cfg dr g d gi i := by
    intro g d gi i; unfold clickCond; rw [h1]
  have hpcond : ∀ g d gi i,
      purchaseCond cfg' dr g d gi i = purchaseCond cfg dr g d gi i := by
    intro g d gi i; unfold purchaseCond; rw [hcc, h2]
  have het : ∀ g d gi i, eventTypeAt cfg' dr g d gi i = eventTypeAt cfg dr g d gi i := by
    intro g d gi i; unfold eventTypeAt; simp only [hpcond, hcc]
  have hrank : ∀ g d gi i,
      purchaseRank cfg' dr g d gi i = purchaseRank cfg dr g d gi i := by
    intro g d gi i; unfold purchaseRank; simp only [hpcond]
  have hrev : ∀ g d gi i, revenueAt cfg' dr g d gi i = revenueAt cfg dr g d gi i := by
    intro g d gi i; unfold revenueAt; simp only [hpcond, h3, hrank]
  unfold data day_data
  rw [h0]
  apply congrArg List.flatten
  apply List.map_congr_left
  intro d _
  congr 1 <;> (apply List.map_congr_left; intro i _; simp only [het, hrev])

/-- C10: with `revenue_global = True` in the reference configuration, the
effective revenue range of both groups is the global range (20, 200), and
the per-group ranges (200, 300) and (20, 100) are dead: replacing them by
any other values leaves the generated Event table unchanged. -/
theorem c10_global_revenue_range_used :
    r_revenue referenceCfg "control" = (20, 200) ∧
    r_revenue referenceCfg "treatment" = (20, 200) ∧
    (∀ (cfg : Config) (dr : Draws) (x y : ℚ × ℚ), cfg.revenue_global = true →
      data { cfg with r_revenue_control := x, r_revenue_treatment := y } dr
        = data cfg dr) := by
  refine ⟨rfl, rfl, ?_⟩
  intro cfg dr x y h
  apply data_congr
  · rfl
  · intro g; rfl
  · intro g; rfl
  · intro g; unfold r_revenue; simp [h]

/-- Witness for C10 at the reference configuration. -/
theorem c10_global_revenue_range_used_witness :
    referenceCfg.revenue_global = true ∧
    data { referenceCfg with r_revenue_control := (0, 1), r_revenue_treatment := (2, 3) }
        drW7 = data referenceCfg drW7 := by
  exact ⟨rfl, c10_global_revenue_range_used.2.2 referenceCfg drW7 (0, 1) (2, 3) rfl⟩

/-! ### C3 -/

theorem ratio_col_nonneg (p v : ℕ) :
    0 ≤ getFin (sanitize (pmul100 (pdiv (p : ℚ) (v : ℚ)))) := by
  rcases Nat.eq_zero_or_pos v with hv | hv
  · subst hv
    rw [Nat.cast_zero, sanitize_pmul100_pdiv_den_zero]
    simp [getFin]
  · have hvQ : (0 : ℚ) < v := by exact_mod_cast hv
    simp only [pdiv, hvQ.ne', if_false, if_neg hvQ.ne', pmul100, sanitize, replaceInf,
      fillna, getFin]
    positivity

theorem ratio_col_le_100 (p v : ℕ) (h : p ≤ v) :
    getFin (sanitize (pmul100 (pdiv (p : ℚ) (v : ℚ)))) ≤ 100 := by
  rcases Nat.eq_zero_or_pos v with hv | hv
  · subst hv
    rw [Nat.cast_zero, sanitize_pmul100_pdiv_den_zero]
    simp [getFin]
  · have hvQ : (0 : ℚ) < v := by exact_mod_cast hv
    simp only [pdiv, if_neg hvQ.ne', pmul100, sanitize, replaceInf, fillna, getFin]
    have h1 : (p : ℚ) / v ≤ 1 := by
      rw [div_le_one hvQ]; exact_mod_cast h
    linarith [mul_le_mul_of_nonneg_right h1 (by norm_num : (0:ℚ) ≤ 100)]

theorem aov_col_nonneg (r : ℚ) (p : ℕ) (hr : 0 ≤ r) :
    0 ≤ getFin (sanitize (pdiv r (p : ℚ))) := by
  rcases Nat.eq_zero_or_pos p with hp | hp
  · subst hp
    rw [Nat.cast_zero, sanitize_pdiv_den_zero]
    simp [getFin]
  · have hpQ : (0 : ℚ) < p := by exact_mod_cast hp
    simp only [pdiv, if_neg hpQ.ne', sanitize, replaceInf, fillna, getFin]
    positivity

/-- Every generated row has non-negative revenue when the revenue draws
are non-negative and the effective ranges are non-negative and ordered. -/
theorem data_revenue_nonneg (cfg : Config) (dr : Draws)
    (hru : ∀ d gi k, 0 ≤ dr.revenueU d gi k)
    (hc0 : 0 ≤ (r_revenue cfg "control").1)
    (hc2 : (r_revenue cfg "control").1 ≤ (r_revenue cfg "control").2)
    (ht0 : 0 ≤ (r_revenue cfg "treatment").1)
    (ht2 : (r_revenue cfg "treatment").1 ≤ (r_revenue cfg "treatment").2) :
    ∀ e ∈ data cfg dr, 0 ≤ e.revenue := by
  intro e he
  obtain ⟨d, -, hcase⟩ := (mem_data cfg dr e).mp he
  have main : ∀ (gi : ℕ) (group : String), 0 ≤ (r_revenue cfg group).1 →
      (r_revenue cfg group).1 ≤ (r_revenue cfg group).2 →
      e ∈ day_data cfg dr d gi group → 0 ≤ e.revenue := by
    intro gi group h1 h2 hmem
    obtain ⟨i, -, rfl⟩ := (mem_day_data cfg dr d gi group e).mp hmem
    by_cases hp : purchaseCond cfg dr group d gi i
    · exact le_trans h1 ((revenueAt_spec cfg dr group d gi i (hru d gi) h2).1 hp)
    · exact le_of_eq ((revenueAt_spec cfg dr group d gi i (hru d gi) h2).2 hp).symm
  rcases hcase with hmem | hmem
  · exact main 0 "control" hc0 hc2 hmem
  · exact main 1 "treatment" ht0 ht2 hmem

theorem kpiRow_revenue_nonneg (evts : List Event) (k : String × ℕ)
    (h : ∀ e ∈ evts, 0 ≤ e.revenue) : 0 ≤ (kpiRow evts k).revenue := by
  show 0 ≤ ((evts.filter
    (fun e => decide (e.group = k.1 ∧ e.date = k.2))).map Event.revenue).sum
  refine List.sum_nonneg ?_
  intro x hx
  obtain ⟨e, he, rfl⟩ := List.mem_map.mp hx
  exact h e (List.mem_of_mem_filter he)

/-- A one-day configuration with click and purchase probability 1 for the
control group, used for the C3 counterexample. -/
def cfg3 : Config := probeCfg 1 1

/-- Three control rows: the first stays a view (its click draw equals the
click probability), the other two become purchases. -/
def dr3 : Draws where
  numViews := fun _ gi => if gi = 0 then 3 else 0
  userIds := fun _ _ _ => 0
  clickU := fun _ _ i => if i = 0 then 1 else 0
  purchU := fun _ _ _ => 0
  revenueU := fun _ _ _ => 0

/-- Counterexample to C3: a KPI row of the pipeline with CVR = 200,
because `views` counts only the rows whose final label is still view
(here 1) while two rows were promoted to purchase. -/
theorem c3_counterexample_cvr_above_100 :
    kpiRow (data cfg3 dr3) ("control", 0) ∈ kpi_data (data cfg3 dr3) ∧
    (kpiRow (data cfg3 dr3) ("control", 0)).views = 1 ∧
    (kpiRow (data cfg3 dr3) ("control", 0)).purchases = 2 ∧
    (kpiRow (data cfg3 dr3) ("control", 0)).CVR = 200 ∧
    ¬ (kpiRow (data cfg3 dr3) ("control", 0)).CVR ≤ 100 := by
  have hkey : ("control", 0) ∈ kpiKeys (data cfg3 dr3) := by decide
  have hmem : kpiRow (data cfg3 dr3) ("control", 0) ∈ kpi_data (data cfg3 dr3) :=
    List.mem_map.mpr ⟨("control", 0), hkey, rfl⟩
  have hv : (kpiRow (data cfg3 dr3) ("control", 0)).views = 1 := by decide
  have hp : (kpiRow (data cfg3 dr3) ("control", 0)).purchases = 2 := by decide
  have hcvr : (kpiRow (data cfg3 dr3) ("control", 0)).CVR = 200 := by
    rw [kpiRow_CVR, hv, hp]
    norm_num [pdiv, pmul100, sanitize, replaceInf, fillna, getFin]
  exact ⟨hmem, hv, hp, hcvr, by rw [hcvr]; norm_num⟩

/-- C3 amended: every KPI row has non-negative CVR, CTR and AOV; the upper
bound 100 for CVR (resp. CTR) holds only under the additional assumption
purchases ≤ views (resp. clicks ≤ views), which the pipeline does not
guarantee because `views` counts only the rows whose final label is view
(see the counterexample with CVR = 200). -/
theorem c3_amended_kpi_bounds (cfg : Config) (dr : Draws)
    (hru : ∀ d gi k, 0 ≤ dr.revenueU d gi k)
    (hc0 : 0 ≤ (r_revenue cfg "control").1)
    (hc2 : (r_revenue cfg "control").1 ≤ (r_revenue cfg "control").2)
    (ht0 : 0 ≤ (r_revenue cfg "treatment").1)
    (ht2 : (r_revenue cfg "treatment").1 ≤ (r_revenue cfg "treatment").2) :
    ∀ row ∈ kpi_data (data cfg dr),
      0 ≤ row.CVR ∧ 0 ≤ row.CTR ∧ 0 ≤ row.AOV ∧
      (row.purchases ≤ row.views → row.CVR ≤ 100) ∧
      (row.clicks ≤ row.views → row.CTR ≤ 100) := by
  intro row hrow
  obtain ⟨k, -, rfl⟩ := List.mem_map.mp hrow
  have hrev := kpiRow_revenue_nonneg (data cfg dr) k
    (data_revenue_nonneg cfg dr hru hc0 hc2 ht0 ht2)
  refine ⟨?_, ?_, ?_, ?_, ?_⟩
  · rw [kpiRow_CVR]; exact ratio_col_nonneg _ _
  · rw [kpiRow_CTR]; exact ratio_col_nonneg _ _
  · rw [kpiRow_AOV]; exact aov_col_nonneg _ _ hrev
  · intro h; rw [kpiRow_CVR]; exact ratio_col_le_100 _ _ h
  · intro h; rw [kpiRow_CTR]; exact ratio_col_le_100 _ _ h

/-- Witness for the amended C3 at a concrete run of the pipeline. -/
theorem c3_amended_kpi_bounds_witness :
    (∀ d gi k, 0 ≤ dr3.revenueU d gi k) ∧
    0 ≤ (r_revenue cfg3 "control").1 ∧
    (r_revenue cfg3 "control").1 ≤ (r_revenue cfg3 "control").2 ∧
    0 ≤ (r_revenue cfg3 "treatment").1 ∧
    (r_revenue cfg3 "treatment").1 ≤ (r_revenue cfg3 "treatment").2 ∧
    kpiRow (data cfg3 dr3) ("control", 0) ∈ kpi_data (data cfg3 dr3) ∧
    0 ≤ (kpiRow (data cfg3 dr3) ("control", 0)).CVR ∧
    0 ≤ (kpiRow (data cfg3 dr3) ("control", 0)).CTR ∧
    0 ≤ (kpiRow (data cfg3 dr3) ("control", 0)).AOV := by
  have hru : ∀ d gi k, (0:ℚ) ≤ dr3.revenueU d gi k := fun _ _ _ => le_refl 0
  have hc0 : 0 ≤ (r_revenue cfg3 "control").1 := by norm_num [r_revenue, cfg3, probeCfg]
  have hc2 : (r_revenue cfg3 "control").1 ≤ (r_revenue cfg3 "control").2 := by
    norm_num [r_revenue, cfg3, probeCfg]
  have ht0 : 0 ≤ (r_revenue cfg3 "treatment").1 := by norm_num [r_revenue, cfg3, probeCfg]
  have ht2 : (r_revenue cfg3 "treatment").1 ≤ (r_revenue cfg3 "treatment").2 := by
    norm_num [r_revenue, cfg3, probeCfg]
  have hkey : ("control", 0) ∈ kpiKeys (data cfg3 dr3) := by decide
  have hmem : kpiRow (data cfg3 dr3) ("control", 0) ∈ kpi_data (data cfg3 dr3) :=
    List.mem_map.mpr ⟨("control", 0), hkey, rfl⟩
  have h := c3_amended_kpi_bounds cfg3 dr3 hru hc0 hc2 ht0 ht2
    (kpiRow (data cfg3 dr3) ("control", 0)) hmem
  exact ⟨hru, hc0, hc2, ht0, ht2, hmem, h.1, h.2.1, h.2.2.1⟩

/-! ### C4 -/

/-- Five control rows with click and purchase probability 1: every row is
promoted to purchase.  Treatment gets no rows. -/
def dr4 : Draws where
  numViews := fun _ gi => if gi = 0 then 5 else 0
  userIds := fun _ _ _ => 0
  clickU := fun _ _ _ => 0
  purchU := fun _ _ _ => 0
  revenueU := fun _ _ k => (k : ℚ)

/-- Counterexample to C4: in the all-purchase scenario the code yields
CVR = 0 and CTR = 0, not 100, because the views count of rows whose final
label is still view is 0, so the raw ratio is infinite and the
post-processing replaces it by 0. -/
theorem c4_counterexample_cvr_is_zero :
    ((data cfg3 dr4).all (fun e => decide (e.event_type = "purchase"))) = true ∧
    (data cfg3 dr4).length = 5 ∧
    (kpiRow (data cfg3 dr4) ("control", 0)).views = 0 ∧
    (kpiRow (data cfg3 dr4) ("control", 0)).purchases = 5 ∧
    (kpiRow (data cfg3 dr4) ("control", 0)).CVR = 0 ∧
    (kpiRow (data cfg3 dr4) ("control", 0)).CTR = 0 ∧
    ¬ (kpiRow (data cfg3 dr4) ("control", 0)).CVR = 100 := by
  have hv : (kpiRow (data cfg3 dr4) ("control", 0)).views = 0 := by decide
  have hc : (kpiRow (data cfg3 dr4) ("control", 0)).clicks = 0 := by decide
  have hp : (kpiRow (data cfg3 dr4) ("control", 0)).purchases = 5 := by decide
  have hcvr : (kpiRow (data cfg3 dr4) ("control", 0)).CVR = 0 := by
    rw [kpiRow_CVR, hv, Nat.cast_zero, sanitize_pmul100_pdiv_den_zero]; rfl
  have hctr : (kpiRow (data cfg3 dr4) ("control", 0)).CTR = 0 := by
    rw [kpiRow_CTR, hv, Nat.cast_zero, sanitize_pmul100_pdiv_den_zero]; rfl
  exact ⟨by decide, by decide, hv, hp, hcvr, hctr, by rw [hcvr]; norm_num⟩

/-- C4 amended: in the one-day scenario with click and purchase
probability 1 for control and 5 generated events, all 5 rows end as
purchase, and the control KPI row has views = 0, clicks = 0,
purchases = 5, CVR = 0 and CTR = 0 (not 100: the zero views count makes
the raw ratios infinite or undefined and they are replaced by 0), and AOV
equal to the mean of the 5 drawn revenues. -/
theorem c4_amended_all_purchase_scenario (cfg : Config) (dr : Draws)
    (hnd : cfg.num_days = 1)
    (hpc : cfg.p_click_control = 1)
    (hpp : cfg.p_purchase_control = 1)
    (hn : dr.numViews 0 0 = 5)
    (hcu : ∀ i, dr.clickU 0 0 i < 1)
    (hpu : ∀ i, dr.purchU 0 0 i < 1) :
    (∀ e ∈ day_data cfg dr 0 0 "control", e.event_type = "purchase") ∧
    (kpiRow (data cfg dr) ("control", 0)).views = 0 ∧
    (kpiRow (data cfg dr) ("control", 0)).clicks = 0 ∧
    (kpiRow (data cfg dr) ("control", 0)).purchases = 5 ∧
    (kpiRow (data cfg dr) ("control", 0)).CVR = 0 ∧
    (kpiRow (data cfg dr) ("control", 0)).CTR = 0 ∧
    (kpiRow (data cfg dr) ("control", 0)).AOV
      = ((List.range 5).map (fun kk => uniformVal (r_revenue cfg "control").1
          (r_revenue cfg "control").2 (dr.revenueU 0 0 kk))).sum / 5 := by
  have hcond : ∀ i, purchaseCond cfg dr "control" 0 0 i := by
    intro i
    have h1 : p_click cfg "control" = 1 := by simp [p_click, hpc]
    have h2 : p_purchase cfg "control" = 1 := by simp [p_purchase, hpp]
    exact ⟨by unfold clickCond; rw [h1]; exact hcu i, by rw [h2]; exact hpu i⟩
  have hall : ∀ e ∈ day_data cfg dr 0 0 "control", e.event_type = "purchase" := by
    intro e hmem
    obtain ⟨i, -, rfl⟩ := (mem_day_data cfg dr 0 0 "control" e).mp hmem
    exact (eventTypeAt_eq_purchase_iff cfg dr "control" 0 0 i).mpr (hcond i)
  have hdata : data cfg dr
      = day_data cfg dr 0 0 "control" ++ day_data cfg dr 0 1 "treatment" := by
    unfold data
    rw [hnd, show List.range 1 = [0] from rfl]
    simp only [List.map_cons, List.map_nil, List.flatten_cons,
      List.flatten_nil, List.append_nil]
  have hfilter : (data cfg dr).filter
      (fun e => decide (e.group = "control" ∧ e.date = 0))
      = day_data cfg dr 0 0 "control" := by
    rw [hdata, List.filter_append]
    have h1 : (day_data cfg dr 0 0 "control").filter
        (fun e => decide (e.group = "control" ∧ e.date = 0))
        = day_data cfg dr 0 0 "control" := by
      refine List.filter_eq_self.mpr ?_
      intro e he
      obtain ⟨i, -, rfl⟩ := (mem_day_data cfg dr 0 0 "control" e).mp he
      exact decide_eq_true ⟨rfl, rfl⟩
    have h2 : (day_data cfg dr 0 1 "treatment").filter
        (fun e => decide (e.group = "control" ∧ e.date = 0)) = [] := by
      refine List.filter_eq_nil_iff.mpr ?_
      intro e he
      obtain ⟨i, -, rfl⟩ := (mem_day_data cfg dr 0 1 "treatment" e).mp he
      simp
    rw [h1, h2, List.append_nil]
  have hviews : (kpiRow (data cfg dr) ("control", 0)).views = 0 := by
    show (((data cfg dr).filter (fun e => decide (e.group = "control" ∧ e.date = 0))).filter
      (fun e => decide (e.event_type = "view"))).length = 0
    rw [hfilter]
    have : (day_data cfg dr 0 0 "control").filter
        (fun e => decide (e.event_type = "view")) = [] := by
      refine List.filter_eq_nil_iff.mpr ?_
      intro e he
      simp [hall e he]
    rw [this]
    rfl
  have hclicks : (kpiRow (data cfg dr) ("control", 0)).clicks = 0 := by
    show (((data cfg dr).filter (fun e => decide (e.group = "control" ∧ e.date = 0))).filter
      (fun e => decide (e.event_type = "click"))).length = 0
    rw [hfilter]
    have : (day_data cfg dr 0 0 "control").filter
        (fun e => decide (e.event_type = "click")) = [] := by
      refine List.filter_eq_nil_iff.mpr ?_
      intro e he
      simp [hall e he]
    rw [this]
    rfl
  have hpurch : (kpiRow (data cfg dr) ("control", 0)).purchases = 5 := by
    show (((data cfg dr).filter (fun e => decide (e.group = "control" ∧ e.date = 0))).filter
      (fun e => decide (e.event_type = "purchase"))).length = 5
    rw [hfilter]
    rw [List.filter_eq_self.mpr (fun e he => decide_eq_true (hall e he))]
    simp [day_data, hn]
  have hrev : (kpiRow (data cfg dr) ("control", 0)).revenue
      = ((List.range 5).map (fun kk => uniformVal (r_revenue cfg "control").1
          (r_revenue cfg "control").2 (dr.revenueU 0 0 kk))).sum := by
    show (((data cfg dr).filter
        (fun e => decide (e.group = "control" ∧ e.date = 0))).map Event.revenue).sum = _
    rw [hfilter]
    unfold day_data
    rw [hn, List.map_map]
    congr 1
    apply List.map_congr_left
    intro i hi
    show revenueAt cfg dr "control" 0 0 i = _
    rw [revenueAt, if_pos (hcond i)]
    have hrank : purchaseRank cfg dr "control" 0 0 i = i := by
      unfold purchaseRank
      rw [List.filter_eq_self.mpr (fun j _ => decide_eq_true (hcond j)), List.length_range]
    rw [hrank]
  have haov : (kpiRow (data cfg dr) ("control", 0)).AOV
      = ((List.range 5).map (fun kk => uniformVal (r_revenue cfg "control").1
          (r_revenue cfg "control").2 (dr.revenueU 0 0 kk))).sum / 5 := by
    rw [kpiRow_AOV, hpurch, hrev]
    norm_num [pdiv, sanitize, replaceInf, fillna, getFin]
  have hcvr : (kpiRow (data cfg dr) ("control", 0)).CVR = 0 := by
    rw [kpiRow_CVR, hviews, Nat.cast_zero, sanitize_pmul100_pdiv_den_zero]; rfl
  have hctr : (kpiRow (data cfg dr) ("control", 0)).CTR = 0 := by
    rw [kpiRow_CTR, hviews, Nat.cast_zero, sanitize_pmul100_pdiv_den_zero]; rfl
  exact ⟨hall, hviews, hclicks, hpurch, hcvr, hctr, haov⟩

/-- Witness for the amended C4 at a concrete configuration and draws. -/
theorem c4_amended_all_purchase_scenario_witness :
    cfg3.num_days = 1 ∧ cfg3.p_click_control = 1 ∧ cfg3.p_purchase_control = 1 ∧
    dr4.numViews 0 0 = 5 ∧
    (∀ i, dr4.clickU 0 0 i < 1) ∧ (∀ i, dr4.purchU 0 0 i < 1) ∧
    (∀ e ∈ day_data cfg3 dr4 0 0 "control", e.event_type = "purchase") ∧
    (kpiRow (data cfg3 dr4) ("control", 0)).CVR = 0 ∧
    (kpiRow (data cfg3 dr4) ("control", 0)).AOV
      = ((List.range 5).map (fun kk => uniformVal (r_revenue cfg3 "control").1
          (r_revenue cfg3 "control").2 (dr4.revenueU 0 0 kk))).sum / 5 := by
  have hcu : ∀ i, dr4.clickU 0 0 i < 1 := fun _ => by norm_num [dr4]
  have hpu : ∀ i, dr4.purchU 0 0 i < 1 := fun _ => by norm_num [dr4]
  have h := c4_amended_all_purchase_scenario cfg3 dr4 rfl rfl rfl rfl hcu hpu
  exact ⟨rfl, rfl, rfl, rfl, hcu, hpu, h.1, h.2.2.2.2.1, h.2.2.2.2.2.2⟩

/-! ### C5 -/

theorem length_filter_cons {a : Type} (p : a -> Bool) (x : a) (l : List a) :
    (List.filter p (x :: l)).length
      = (if p x = true then 1 else 0) + (List.filter p l).length := by
  by_cases h : p x = true
  · simp [List.filter_cons, h]
    omega
  · simp [List.filter_cons, h]

theorem sum_map_add_distrib {a : Type} (K : List a) (f g : a -> Nat) :
    (K.map (fun k => f k + g k)).sum = (K.map f).sum + (K.map g).sum := by
  induction K with
  | nil => rfl
  | cons k t ih =>
    simp only [List.map_cons, List.sum_cons, ih]
    omega

theorem sum_map_ite_one (a : String × Nat) (K : List (String × Nat)) (hK : K.Nodup) :
    (K.map (fun k => if a = k then (1:Nat) else 0)).sum = if a ∈ K then 1 else 0 := by
  induction K with
  | nil => rfl
  | cons k t ih =>
    rcases List.nodup_cons.mp hK with ⟨hknot, ht⟩
    rw [List.map_cons, List.sum_cons, ih ht]
    by_cases hak : a = k
    · subst hak
      simp [hknot]
    · simp [hak, List.mem_cons]

theorem filter_map_comm {a b : Type} (l : List a) (f : a -> b) (p : b -> Bool) :
    (l.map f).filter p = (l.filter (fun x => p (f x))).map f := by
  induction l with
  | nil => rfl
  | cons x t ih =>
    by_cases h : p (f x) = true
    · simp [List.map_cons, List.filter_cons, h, ih]
    · simp [List.map_cons, List.filter_cons, h, ih]

theorem kpiRow_views_eq (evts : List Event) (k : String × Nat) :
    (kpiRow evts k).views = (evts.filter (fun e =>
      decide (e.event_type = "view") && decide (e.group = k.1 ∧ e.date = k.2))).length := by
  show ((evts.filter (fun e => decide (e.group = k.1 ∧ e.date = k.2))).filter
    (fun e => decide (e.event_type = "view"))).length = _
  rw [List.filter_filter]

theorem sum_counts_over_keys (g : String) (K : List (String × Nat))
    (hK : K.Nodup) (hg : ∀ k ∈ K, k.1 = g) (evts : List Event)
    (hcov : ∀ e ∈ evts, e.group = g → e.event_type = "view" → (e.group, e.date) ∈ K) :
    (K.map (fun k => (evts.filter (fun e =>
        decide (e.event_type = "view") && decide (e.group = k.1 ∧ e.date = k.2))).length)).sum
      = (evts.filter (fun e => decide (e.group = g ∧ e.event_type = "view"))).length := by
  induction evts with
  | nil => simp
  | cons e t ih =>
    have hcovt : ∀ x ∈ t, x.group = g → x.event_type = "view" → (x.group, x.date) ∈ K :=
      fun x hx => hcov x (List.mem_cons_of_mem e hx)
    have key : (K.map (fun k => if (decide (e.event_type = "view") &&
        decide (e.group = k.1 ∧ e.date = k.2)) = true then (1:Nat) else 0)).sum
        = if (decide (e.group = g ∧ e.event_type = "view")) = true then 1 else 0 := by
      by_cases hview : e.event_type = "view"
      · by_cases hgrp : e.group = g
        · have hkmem : (e.group, e.date) ∈ K :=
            hcov e (List.mem_cons_self e t) hgrp hview
          have hmap : K.map (fun k => if (decide (e.event_type = "view") &&
              decide (e.group = k.1 ∧ e.date = k.2)) = true then (1:Nat) else 0)
              = K.map (fun k => if (e.group, e.date) = k then (1:Nat) else 0) := by
            apply List.map_congr_left
            intro k hk
            simp [hview, Prod.ext_iff]
          rw [hmap, sum_map_ite_one _ _ hK, if_pos hkmem,
            if_pos (decide_eq_true ⟨hgrp, hview⟩)]
        · have hz : ∀ x ∈ K.map (fun k => if (decide (e.event_type = "view") &&
              decide (e.group = k.1 ∧ e.date = k.2)) = true then (1:Nat) else 0), x = 0 := by
            intro x hx
            obtain ⟨k, hk, rfl⟩ := List.mem_map.mp hx
            have hne : ¬ e.group = k.1 := by
              rw [hg k hk]; exact hgrp
            simp [hne]
          rw [List.sum_eq_zero hz]
          simp [hgrp]
      · have hz : ∀ x ∈ K.map (fun k => if (decide (e.event_type = "view") &&
            decide (e.group = k.1 ∧ e.date = k.2)) = true then (1:Nat) else 0), x = 0 := by
          intro x hx
          obtain ⟨k, hk, rfl⟩ := List.mem_map.mp hx
          simp [hview]
        rw [List.sum_eq_zero hz]
        simp [hview]
    have hmap2 : K.map (fun k => (List.filter (fun e2 =>
        decide (e2.event_type = "view") && decide (e2.group = k.1 ∧ e2.date = k.2)) (e :: t)).length)
        = K.map (fun k => (if (decide (e.event_type = "view") &&
            decide (e.group = k.1 ∧ e.date = k.2)) = true then (1:Nat) else 0)
          + (List.filter (fun e2 =>
            decide (e2.event_type = "view") && decide (e2.group = k.1 ∧ e2.date = k.2)) t).length) := by
      apply List.map_congr_left
      intro k hk
      exact length_filter_cons _ e t
    rw [hmap2, sum_map_add_distrib, key, ih hcovt, length_filter_cons]

/-- Summing the views column over the KPI rows of one group counts the
rows of the Event table whose final label is view, one groupby cell at a
time. -/
theorem views_sum_general (evts : List Event) (g : String) :
    (((kpi_data evts).filter (fun r => decide (r.group = g))).map KpiRow.views).sum
      = (evts.filter (fun e => decide (e.group = g ∧ e.event_type = "view"))).length := by
  rw [kpi_data, filter_map_comm, List.map_map]
  have hK : ((kpiKeys evts).filter
      (fun k => decide ((kpiRow evts k).group = g))).Nodup :=
    List.Nodup.filter _ (List.nodup_dedup _)
  have hg : ∀ k ∈ (kpiKeys evts).filter
      (fun k => decide ((kpiRow evts k).group = g)), k.1 = g := by
    intro k hk
    exact of_decide_eq_true (List.mem_filter.mp hk).2
  have hcov : ∀ e ∈ evts, e.group = g → e.event_type = "view" →
      (e.group, e.date) ∈ (kpiKeys evts).filter
        (fun k => decide ((kpiRow evts k).group = g)) := by
    intro e he hgrp hview
    refine List.mem_filter.mpr ⟨?_, ?_⟩
    · exact List.mem_dedup.mpr (List.mem_map.mpr ⟨e, he, rfl⟩)
    · exact decide_eq_true hgrp
  have hpt : ∀ k ∈ (kpiKeys evts).filter
      (fun k => decide ((kpiRow evts k).group = g)),
      (KpiRow.views ∘ kpiRow evts) k = (evts.filter (fun e =>
        decide (e.event_type = "view") && decide (e.group = k.1 ∧ e.date = k.2))).length :=
    fun k _ => kpiRow_views_eq evts k
  rw [List.map_congr_left hpt]
  exact sum_counts_over_keys g _ hK hg evts hcov

/-- One control row promoted to click under `cfg5`. -/
def cfg5 : Config := probeCfg 1 0

/-- A single control row whose click draw is below the click probability. -/
def dr5 : Draws where
  numViews := fun _ gi => if gi = 0 then 1 else 0
  userIds := fun _ _ _ => 0
  clickU := fun _ _ _ => 0
  purchU := fun _ _ _ => 0
  revenueU := fun _ _ _ => 0

/-- Counterexample to C5: the single control row originated as a view but
was promoted to click, so the views column sums to 0 while the group has 1
row that originated as a view. -/
theorem c5_counterexample_promoted_rows_not_counted :
    (((kpi_data (data cfg5 dr5)).filter
      (fun r => decide (r.group = "control"))).map KpiRow.views).sum = 0 ∧
    ((data cfg5 dr5).filter (fun e => decide (e.group = "control"))).length = 1 ∧
    ¬ ((((kpi_data (data cfg5 dr5)).filter
      (fun r => decide (r.group = "control"))).map KpiRow.views).sum
        = ((data cfg5 dr5).filter (fun e => decide (e.group = "control"))).length) := by
  refine ⟨by decide, by decide, by decide⟩

/-- C5 amended: for each group, the per-day views counts of the KPI table
sum to the number of Event rows of that group whose FINAL label is view;
rows promoted to click or purchase are excluded from the views column
(they are counted by the clicks and purchases columns instead, see C9). -/
theorem c5_amended_views_sum (cfg : Config) (dr : Draws) (g : String) :
    (((kpi_data (data cfg dr)).filter (fun r => decide (r.group = g))).map KpiRow.views).sum
      = ((data cfg dr).filter
          (fun e => decide (e.group = g ∧ e.event_type = "view"))).length :=
  views_sum_general (data cfg dr) g

/-! ### C6 -/

theorem dedup_replicate_append {a : Type} [DecidableEq a] (x : a) (l : List a) :
    ∀ n : ℕ, 0 < n → x ∉ l → (List.replicate n x ++ l).dedup = x :: l.dedup := by
  intro n
  induction n with
  | zero => intro h; exact absurd h (lt_irrefl 0)
  | succ m ih =>
    intro _ hx
    rcases Nat.eq_zero_or_pos m with h0 | hm
    · subst h0
      rw [show List.replicate 1 x = [x] from rfl, List.singleton_append,
        List.dedup_cons_of_not_mem hx]
    · have hmem : x ∈ List.replicate m x ++ l :=
        List.mem_append.mpr (Or.inl (List.mem_replicate.mpr ⟨hm.ne', rfl⟩))
      rw [List.replicate_succ, List.cons_append, List.dedup_cons_of_mem hmem, ih hm hx]

theorem day_data_map_key (cfg : Config) (dr : Draws) (d gi : ℕ) (group : String) :
    (day_data cfg dr d gi group).map (fun e => (e.group, e.date))
      = List.replicate (dr.numViews d gi) (group, d) := by
  unfold day_data
  rw [List.map_map]
  have hf : ((fun e : Event => (e.group, e.date)) ∘ (fun i =>
      ({ user_id := dr.userIds d gi i
         date := d
         event_type := eventTypeAt cfg dr group d gi i
         group := group
         revenue := revenueAt cfg dr group d gi i } : Event)))
      = fun _ : ℕ => (group, d) := rfl
  rw [hf, List.map_const', List.length_range]

theorem data_map_key (cfg : Config) (dr : Draws) :
    (data cfg dr).map (fun e => (e.group, e.date))
      = ((List.range cfg.num_days).map (fun d =>
          List.replicate (dr.numViews d 0) (("control", d) : String × ℕ)
            ++ List.replicate (dr.numViews d 1) ("treatment", d))).flatten := by
  unfold data
  rw [List.map_flatten, List.map_map]
  congr 1
  apply List.map_congr_left
  intro d _
  show (day_data cfg dr d 0 "control" ++ day_data cfg dr d 1 "treatment").map
      (fun e => (e.group, e.date)) = _
  rw [List.map_append, day_data_map_key, day_data_map_key]

theorem mem_dayKeys_snd (dr : Draws) (rest : List ℕ) (x : String × ℕ)
    (hx : x ∈ (rest.map (fun d =>
      List.replicate (dr.numViews d 0) (("control", d) : String × ℕ)
        ++ List.replicate (dr.numViews d 1) ("treatment", d))).flatten) :
    x.2 ∈ rest := by
  obtain ⟨l, hl, hxl⟩ := List.mem_flatten.mp hx
  obtain ⟨d, hd, rfl⟩ := List.mem_map.mp hl
  rcases List.mem_append.mp hxl with h | h
  · obtain rfl := (List.mem_replicate.mp h).2
    exact hd
  · obtain rfl := (List.mem_replicate.mp h).2
    exact hd

theorem dedup_day_keys (dr : Draws) (ds : List ℕ) (hds : ds.Nodup)
    (hn0 : ∀ d ∈ ds, 0 < dr.numViews d 0) (hn1 : ∀ d ∈ ds, 0 < dr.numViews d 1) :
    ((ds.map (fun d => List.replicate (dr.numViews d 0) (("control", d) : String × ℕ)
        ++ List.replicate (dr.numViews d 1) ("treatment", d))).flatten).dedup
      = (ds.map (fun d =>
          [(("control", d) : String × ℕ), ("treatment", d)])).flatten := by
  induction ds with
  | nil => rfl
  | cons d rest ih =>
    rcases List.nodup_cons.mp hds with ⟨hdnot, hrest⟩
    rw [List.map_cons, List.flatten_cons, List.append_assoc]
    have hc_not : (("control", d) : String × ℕ) ∉
        List.replicate (dr.numViews d 1) (("treatment", d) : String × ℕ)
          ++ (rest.map (fun d2 =>
            List.replicate (dr.numViews d2 0) (("control", d2) : String × ℕ)
              ++ List.replicate (dr.numViews d2 1) ("treatment", d2))).flatten := by
      intro hmem
      rcases List.mem_append.mp hmem with h | h
      · have := (List.mem_replicate.mp h).2
        simp at this
      · exact hdnot (mem_dayKeys_snd dr rest _ h)
    have ht_not : (("treatment", d) : String × ℕ) ∉ (rest.map (fun d2 =>
        List.replicate (dr.numViews d2 0) (("control", d2) : String × ℕ)
          ++ List.replicate (dr.numViews d2 1) ("treatment", d2))).flatten := by
      intro h
      exact hdnot (mem_dayKeys_snd dr rest _ h)
    rw [dedup_replicate_append _ _ _ (hn0 d (List.mem_cons_self d rest)) hc_not,
      dedup_replicate_append _ _ _ (hn1 d (List.mem_cons_self d rest)) ht_not,
      ih hrest (fun x hx => hn0 x (List.mem_cons_of_mem d hx))
        (fun x hx => hn1 x (List.mem_cons_of_mem d hx))]
    rfl

/-- C6: the KPI table has exactly one row per (group, date) key present in
the Event table — its key column is exactly the deduplicated key list of
the input, without repetition — and in the reference configuration
(30 days, both groups non-empty every day) it has exactly 60 rows.  The
columns are the fields of `KpiRow`: group, date, views, clicks, purchases,
revenue, CVR, AOV, CTR. -/
theorem c6_one_row_per_group_date :
    (∀ evts : List Event, (kpi_data evts).map rowKey = kpiKeys evts) ∧
    (∀ evts : List Event, (kpiKeys evts).Nodup) ∧
    (∀ (evts : List Event) (k : String × ℕ),
      k ∈ kpiKeys evts ↔ k ∈ evts.map (fun e => (e.group, e.date))) ∧
    (∀ dr : Draws, (∀ d gi, 0 < dr.numViews d gi) →
      (kpi_data (data referenceCfg dr)).length = 60) := by
  refine ⟨?_, fun evts => List.nodup_dedup _, fun evts k => List.mem_dedup, ?_⟩
  · intro evts
    rw [kpi_data, List.map_map]
    have h : (rowKey ∘ kpiRow evts) = id := rfl
    rw [h, List.map_id]
  · intro dr hn
    rw [kpi_data, List.length_map, kpiKeys, data_map_key]
    rw [show referenceCfg.num_days = 30 from rfl]
    rw [dedup_day_keys dr (List.range 30) (List.nodup_range 30)
      (fun d _ => hn d 0) (fun d _ => hn d 1)]
    rw [List.length_flatten, List.map_map]
    have hf : (List.length ∘ fun d : ℕ =>
        [(("control", d) : String × ℕ), ("treatment", d)]) = fun _ : ℕ => 2 := rfl
    rw [hf, List.map_const', List.length_range, List.sum_replicate]
    norm_num

/-- Witness draws for C6: one event per day and group. -/
def drW6 : Draws where
  numViews := fun _ _ => 1
  userIds := fun _ _ _ => 0
  clickU := fun _ _ _ => 1
  purchU := fun _ _ _ => 1
  revenueU := fun _ _ _ => 0

/-- Witness for C6: the reference configuration with non-empty days has a
60-row KPI table. -/
theorem c6_one_row_per_group_date_witness :
    (∀ d gi, 0 < drW6.numViews d gi) ∧
    (kpi_data (data referenceCfg drW6)).length = 60 := by
  have hn : ∀ d gi, 0 < drW6.numViews d gi := fun _ _ => Nat.one_pos
  exact ⟨hn, c6_one_row_per_group_date.2.2.2 drW6 hn⟩

end BusinessCase
